import Mathlib

/-!
Verification of the IKEA product scraper (`src/main.js`).

The repository bundles three closely related revisions of `main.js`; the
claims reference the concatenated file, so this development embeds:
  * `processApiProduct` and the LIST-label strategy chain of the first
    revision (lines 58-733), and
  * `mapSikProduct`, `extractProductsFromHtml`, `extractProductDetails`,
    `findNextPage`, the `runDetailCrawler` / `runHtmlCrawler` handlers and
    `failedRequestHandler` of the second revision (lines 734-1519).

JavaScript dynamic values are embedded as the inductive `JVal`
(null/undefined are conflated into `jnull`; both behave as the falsy,
key-less value in every code path modelled here).  JS objects appearing as
records with a statically known key set are embedded as Lean structures;
objects whose *key presence* matters (the spread merge of detail results)
are embedded as association lists (`Obj`).  Regular-expression matching that
the code performs on page text is embedded either directly (the product-id
pattern `/\/p\/[^/]+-(\d+)\/?/` and the listing price number pattern) or as
page-supplied match results carried by the page abstraction, which models
the DOM/regex layer the crawler reads.
-/

/-- JavaScript runtime values as used by the scraper's data paths.
`jnull` stands for both `null` and `undefined` (interchangeable in every
modelled path: both are falsy and yield `undefined` on property access). -/
inductive JVal where
  | jnull : JVal
  | jstr (s : String) : JVal
  | jnum (q : Rat) : JVal
  | jbool (b : Bool) : JVal
  | jarr (xs : List JVal) : JVal
  | jobj (fields : List (String × JVal)) : JVal

open JVal

/-- JavaScript truthiness: `""`, `0`, `false`, `null`/`undefined` are falsy;
arrays and objects are always truthy. -/
def truthy : JVal → Bool
  | jnull => false
  | jstr s => s ≠ ""
  | jnum q => q ≠ 0
  | jbool b => b
  | jarr _ => true
  | jobj _ => true

/-- The JS `a || b` operator: `a` when truthy, otherwise `b`. -/
def jor (a b : JVal) : JVal := if truthy a then a else b

/-- The JS `a ?? b` operator: `a` unless it is `null`/`undefined`. -/
def jco (a b : JVal) : JVal :=
  match a with
  | jnull => b
  | v => v

/-- Property access `v.k` (also covering optional chaining `v?.k`):
`undefined` (here `jnull`) when `v` is not an object or lacks the key. -/
def jget (v : JVal) (k : String) : JVal :=
  match v with
  | jobj fs => (fs.lookup k).getD jnull
  | _ => jnull

/-- JS `String(v)` conversion, as used on product-id values.  Number
formatting is only modelled for integral values, the only ones the id
fields carry in the modelled paths. -/
def jToString : JVal → String
  | jnull => "null"
  | jstr s => s
  | jnum q => if q.den = 1 then toString q.num else toString q.num ++ "." ++ toString q.den
  | jbool b => if b then "true" else "false"
  | jarr _ => ""
  | jobj _ => "[object Object]"

/-- Substring test (`String.prototype.includes`), on char lists. -/
def hasSubList (needle : List Char) : List Char → Bool
  | [] => needle.isEmpty
  | c :: rest => needle.isPrefixOf (c :: rest) || hasSubList needle rest

/-- Substring test `hay.includes(needle)`. -/
def containsStr (hay needle : String) : Bool := hasSubList needle.data hay.data

/-- Whitespace trim from both ends (`String.prototype.trim`). -/
def trimChars (s : String) : String :=
  ⟨((s.data.dropWhile Char.isWhitespace).reverse.dropWhile Char.isWhitespace).reverse⟩

/-- Lower-casing (`String.prototype.toLowerCase`). -/
def lowerStr (s : String) : String := ⟨s.data.map Char.toLower⟩

/-- Joining with a separator (`Array.prototype.join`). -/
def interStr (sep : String) : List String → String
  | [] => ""
  | [x] => x
  | x :: rest => x ++ sep ++ interStr sep rest

/-- Prefix test (`String.prototype.startsWith`). -/
def startsWithStr (s pre : String) : Bool := pre.data.isPrefixOf s.data

/-- Split of a char list at every occurrence of `c`. -/
def splitOnCharAux (c : Char) : List Char → List Char → List (List Char)
  | [], acc => [acc.reverse]
  | x :: rest, acc =>
    if x = c then acc.reverse :: splitOnCharAux c rest []
    else splitOnCharAux c rest (x :: acc)

/-- Split of a string at every occurrence of `c`. -/
def splitOnChar (c : Char) (s : String) : List String :=
  (splitOnCharAux c s.data []).map fun l => ⟨l⟩

/-- Value of a digit list read in base 10. -/
def digitsToNat (ds : List Char) : Nat := ds.foldl (fun a c => a * 10 + (c.toNat - 48)) 0

/-- Leading run of decimal digits. -/
def takeDigits (l : List Char) : List Char := l.takeWhile Char.isDigit

/-- Decimal value `ip.fp` as a rational, e.g. `decVal "12" "5" = 12.5`. -/
def decVal (ip fp : List Char) : Rat :=
  mkRat (digitsToNat (ip ++ fp)) (10 ^ fp.length)

/-- First match of the price-number pattern `/(\d+(?:\.\d{1,2})?)/`
(applied by `extractProductsFromHtml` to the card text after commas are
stripped): the first digit run, extended by at most two fraction digits
when a `.` followed by a digit comes right after. -/
def firstNumber : List Char → Option Rat
  | [] => none
  | c :: rest =>
    if c.isDigit then
      let ip := takeDigits (c :: rest)
      let after := (c :: rest).drop ip.length
      let fp :=
        match after with
        | '.' :: ds => (takeDigits ds).take 2
        | _ => []
      some (decVal ip fp)
    else firstNumber rest

/-- Captured digits of `[^/]+-(\d+)` inside one URL path segment: the
rightmost `-` that is preceded by at least one character and followed by a
digit (the regex's greedy `[^/]+` backtracks to that position), capturing
the maximal digit run after it. -/
def segCapture (seg : List Char) : Option String :=
  match ((List.range seg.length).filter fun i =>
      1 ≤ i ∧ seg.get? i = some '-' ∧ (seg.get? (i + 1)).any Char.isDigit).getLast? with
  | some i => some ⟨takeDigits (seg.drop (i + 1))⟩
  | none => none

/-- Scan for the product-id pattern `/\/p\/[^/]+-(\d+)\/?/`: at each
occurrence of `/p/`, the following path segment must contain a `-` followed
by digits; the first occurrence admitting a match wins (JS regex scanning
order), capturing the digits. -/
def parsePidAux : List Char → Option String
  | [] => none
  | c :: rest =>
    if c = '/' ∧ rest.take 2 = ['p', '/'] then
      match segCapture ((rest.drop 2).takeWhile (· ≠ '/')) with
      | some d => some d
      | none => parsePidAux rest
    else parsePidAux rest

/-- Product id extracted from a URL: `url.match(/\/p\/[^/]+-(\d+)\/?/)?.[1]`. -/
def parsePid (url : String) : Option String := parsePidAux url.data

/-- Site origin used by the scraper's URL resolution (country/language fixed
to the input defaults `gb`/`en` as in the run configuration). -/
def siteOrigin : String := "https://www.ikea.com"

/-- Default base of relative hrefs: `https://www.ikea.com/gb/en/`. -/
def defaultBase : String := siteOrigin ++ "/gb/en/"

/-- The scraper's `toAbs` helper, `new URL(href, base).href`, restricted to
the href shapes the site produces (absolute, root-relative, relative);
URL-parse failure (the `catch` branch returning null) does not arise for
these shapes and is not modelled. -/
def toAbs (href : String) : String :=
  if containsStr href "://" then href
  else if startsWithStr href "/" then siteOrigin ++ href
  else defaultBase ++ href

/-- The seen-set step shared by every candidate mapper
(`if (!id || seenProducts.has(id)) return null; seenProducts.add(id);`):
atomically claims `i`, succeeding exactly when `i` was not yet recorded. -/
def tryClaim (st : List String) (i : String) : Bool × List String :=
  if i ∈ st then (false, st) else (true, i :: st)

/-- Canonical product record built by the listing-side mappers
(`processApiProduct`, `mapSikProduct`, `extractProductsFromHtml`); fields
other than the id keep their JS value shape. -/
structure Rec where
  productId : String
  name : JVal
  price : JVal
  currency : JVal
  image : JVal
  url : JVal
  rating : JVal
  reviewCount : JVal
  availability : JVal
  category : JVal

/-- JS objects whose key *presence* matters (the detail-merge spread):
association lists from key to value, looked up front to back. -/
abbrev Obj := List (String × JVal)

/-- Field read `o.k`, `undefined` (`jnull`) when the key is absent. -/
def getF (o : Obj) (k : String) : JVal := (o.lookup k).getD jnull

/-- Key-presence test `k in o`. -/
def hasKey (o : Obj) (k : String) : Bool := (o.lookup k).isSome

/-- The JS object spread `{...a, ...b}`: keys of `b` override keys of `a`,
including keys whose value is `null`. -/
def spread (a b : Obj) : Obj := a.filter (fun kv => !(hasKey b kv.1)) ++ b

/-- The object literal a persisted `Rec` serializes to. -/
def recToObj (r : Rec) : Obj :=
  [("productId", jstr r.productId), ("name", r.name), ("price", r.price),
   ("currency", r.currency), ("image", r.image), ("url", r.url),
   ("rating", r.rating), ("reviewCount", r.reviewCount),
   ("availability", r.availability), ("category", r.category)]

/-- Replacement `/\s+/g → '-'` on a char list (each maximal whitespace run
becomes one dash); the flag records whether the previous char was inside a
whitespace run. -/
def wsToDashAux : Bool → List Char → List Char
  | _, [] => []
  | inWs, c :: rest =>
    if c.isWhitespace then
      if inWs then wsToDashAux true rest else '-' :: wsToDashAux true rest
    else c :: wsToDashAux false rest

/-- The slug `name?.toLowerCase().replace(/\s+/g, '-')` used in
`processApiProduct`'s synthetic URL (a missing name interpolates as the
string `undefined`). -/
def nameSlug : JVal → String
  | jstr s => ⟨wsToDashAux false (lowerStr s).data⟩
  | _ => "undefined"

/-- The record literal returned by the first-revision `processApiProduct`
once the id `pid` has been claimed. -/
def apiRecord (pid : String) (cat : String) (p : JVal) : Rec :=
  { productId := pid,
    name := jor (jget p "name") (jor (jget p "title") (jor (jget p "productName") jnull)),
    price := jor (jget (jget p "price") "value")
               (jor (jget p "priceNumeral") (jor (jget p "price") jnull)),
    currency := jor (jget (jget p "price") "currency")
                  (jor (jget p "currencyCode") (jstr "GBP")),
    image := jor (jget p "image") (jor (jget p "mainImageUrl") (jor (jget p "imageUrl") jnull)),
    url := jor (jget p "url")
             (jor (jget p "pipUrl")
               (jstr (toAbs ("/p/" ++ nameSlug (jget p "name") ++ "-" ++ pid ++ "/")))),
    rating := jor (jget p "rating") (jor (jget p "averageRating") jnull),
    reviewCount := jor (jget p "reviewCount") (jor (jget p "numberOfReviews") jnull),
    availability :=
      if truthy (jor (jget p "availability") (jget p "availableForClickAndCollect"))
      then jstr "Available" else jstr "Check availability",
    category := jor (jstr cat) jnull }

/-- First-revision `processApiProduct` (lines 559-576): resolves a product
id from the payload, claims it against the seen set, and normalizes the
payload fields; returns the updated seen set and the record, or `none` when
the id is missing or already claimed. -/
def processApiProduct (st : List String) (cat : String) (p : JVal) :
    List String × Option Rec :=
  let pidV := jor (jget p "id") (jor (jget p "productId") (jget p "itemNo"))
  if ¬ truthy pidV then (st, none)
  else
    let pid := jToString pidV
    match tryClaim st pid with
    | (false, _) => (st, none)
    | (true, st') => (st', some (apiRecord pid cat p))

/-- The `allProductImage?.find((img) => img.url)?.url || null` fallback of
`mapSikProduct`. -/
def findImgUrl (v : JVal) : JVal :=
  match v with
  | jarr xs =>
    match xs.find? (fun im => truthy (jget im "url")) with
    | some im => jget im "url"
    | none => jnull
  | _ => jnull

/-- The stringified, trimmed item number `mapSikProduct` resolves:
`String(product.itemNo || product.itemNoGlobal || product.id || product.productNumber || '').trim()`. -/
def sikPid (p : JVal) : String :=
  trimChars (jToString (jor (jget p "itemNo") (jor (jget p "itemNoGlobal")
    (jor (jget p "id") (jor (jget p "productNumber") (jstr ""))))))

/-- The record literal returned by `mapSikProduct` once `pid` is claimed. -/
def sikRecord (pid : String) (cat : String) (p : JVal) : Rec :=
  let nameParts := [jget p "name", jget p "typeName"].filter truthy
  let name1 : JVal :=
    if ¬ nameParts.isEmpty then
      jstr (trimChars (interStr " " (nameParts.map jToString)))
    else jget p "name"
  { productId := pid,
    name := jor name1 (jor (jget p "productName") jnull),
    price := jco (jget (jget p "salesPrice") "numeral") (jco (jget p "priceNumeral") jnull),
    currency := jor (jget (jget p "salesPrice") "currencyCode")
                  (jor (jget p "currencyCode") jnull),
    image := jor (jget p "mainImageUrl") (jor (findImgUrl (jget p "allProductImage")) jnull),
    url := if truthy (jget p "pipUrl")
           then jstr (toAbs (jToString (jget p "pipUrl"))) else jnull,
    rating := jco (jget p "ratingValue") (jco (jget p "averageRating") jnull),
    reviewCount := jco (jget p "ratingCount") (jco (jget p "numberOfReviews") jnull),
    availability :=
      match jget p "availability" with
      | jarr xs =>
        if ¬ xs.isEmpty then jstr (interStr ", " (xs.map jToString))
        else jstr "Check availability"
      | _ => jstr "Check availability",
    category := jor (jstr cat) jnull }

/-- Second-revision `mapSikProduct` (lines 873-904): resolves the item
number (stringified and trimmed), claims it, and maps the SIK search
payload into a record. -/
def mapSikProduct (st : List String) (cat : String) (p : JVal) :
    List String × Option Rec :=
  let pid := sikPid p
  if pid = "" then (st, none)
  else
    match tryClaim st pid with
    | (false, _) => (st, none)
    | (true, st') => (st', some (sikRecord pid cat p))

/-- Replacement `aria.replace(/^New\s+/i, '')`: drops a leading
case-insensitive `New` together with the whitespace run after it. -/
def stripNewPfx (s : String) : String :=
  match s.data with
  | n :: e :: w :: c :: rest =>
    if n.toLower = 'n' ∧ e.toLower = 'e' ∧ w.toLower = 'w' ∧ c.isWhitespace then
      ⟨(c :: rest).dropWhile Char.isWhitespace⟩
    else s
  | _ => s

/-- One product-card element as `extractProductsFromHtml` reads it.  Each
field carries the result of the corresponding DOM query on the card:
`hrefs` lists, per link selector in the code's fixed order, the `href`
attribute of the selector's first match; `ariaLabel` is the `aria-label`
of the link that provided the product URL; `nameTexts` lists the text of
the first match per name selector; `elemText` is the card's full text
(`$elem.text()`); `imgCands` lists, per image selector, the resolved
`src || data-src || data-lazy-src`; `ratingM` and `reviewM` carry the
results of the rating pattern `/([\d.]+)\s*(?:out of 5|\/\s*5)/i` and the
review pattern `/(\d+)\s*(?:reviews?|review)/i` applied to `elemText`. -/
structure Card where
  hrefs : List (Option String)
  ariaLabel : Option String
  nameTexts : List String
  elemText : String
  imgCands : List (Option String)
  ratingM : Option Rat
  reviewM : Option Nat

/-- Product URL of a card: the first link selector whose href is truthy and
contains `/p/` wins, and its href is made absolute. -/
def cardProductUrl (c : Card) : Option String :=
  match c.hrefs.find? (fun h =>
      match h with
      | some s => s ≠ "" ∧ containsStr s "/p/"
      | none => false) with
  | some (some h) => some (toAbs h)
  | _ => none

/-- Image pick of `extractProductsFromHtml`: walk the image-selector
results, stopping at the first truthy candidate that mentions neither
`spacer` nor `placeholder`; with no early stop the last candidate (possibly
null) is kept. -/
def pickImage : List (Option String) → JVal
  | [] => jnull
  | c :: rest =>
    let img : JVal := match c with | some s => jstr s | none => jnull
    let good : Bool := match c with
      | some s => s != "" && !containsStr s "spacer" && !containsStr s "placeholder"
      | none => false
    if good then img
    else match rest with
      | [] => img
      | _ => pickImage rest

/-- The candidate record a card yields: name from the first non-empty
trimmed name-selector text, falling back to the breaking link's aria-label
with the `New` prefix stripped and trimmed; price from the first number of
the comma-stripped card text; `currency: null`; `availability: 'Available'`. -/
def cardRecord (pid url : String) (c : Card) : Rec :=
  { productId := pid,
    name :=
      match (c.nameTexts.map trimChars).find? (· ≠ "") with
      | some t => jstr t
      | none =>
        match c.ariaLabel with
        | some a => jstr (trimChars (stripNewPfx a))
        | none => jnull,
    price :=
      match firstNumber (c.elemText.data.filter (· ≠ ',')) with
      | some q => jnum q
      | none => jnull,
    currency := jnull,
    image := pickImage c.imgCands,
    url := jstr url,
    rating := match c.ratingM with | some q => jnum q | none => jnull,
    reviewCount := match c.reviewM with | some n => jnum (n : Rat) | none => jnull,
    availability := jstr "Available",
    category := jnull }

/-- Per-card body of the second-revision `extractProductsFromHtml` loop
(lines 975-1068): resolve the product URL, parse and claim the id, resolve
name (selector text, falling back to the link's aria-label with the `New`
prefix stripped), price (first number of the comma-stripped card text),
image, rating and review count; the candidate is emitted only when name and
price are both truthy.  A parsable fresh id is claimed *before* that
validation. -/
def extractCard (st : List String) (c : Card) : List String × Option Rec :=
  match cardProductUrl c with
  | none => (st, none)
  | some url =>
    match parsePid url with
    | none => (st, none)
    | some pid =>
      match tryClaim st pid with
      | (false, _) => (st, none)
      | (true, st') =>
        let r := cardRecord pid url c
        if truthy r.name ∧ truthy r.price then (st', some r) else (st', none)

/-- Fold of `extractCard` over the card elements of a listing page,
threading the seen set and collecting the emitted records in order. -/
def extractCards (st : List String) : List Card → List String × List Rec
  | [] => (st, [])
  | c :: rest =>
    match extractCard st c with
    | (st1, some r) =>
      let (st2, rs) := extractCards st1 rest
      (st2, r :: rs)
    | (st1, none) => extractCards st1 rest

/-- A listing page as the DOM extractor sees it: per container selector in
the code's fixed order, the list of matched card elements. -/
structure HtmlPage where
  cardsBySel : List (List Card)

/-- Container-selector choice: the first selector matching at least one
element provides the card elements; otherwise none. -/
def pickCards : List (List Card) → List Card
  | [] => []
  | l :: rest => if l.isEmpty then pickCards rest else l

/-- Second-revision `extractProductsFromHtml` (lines 947-1072). -/
def extractProductsFromHtml (st : List String) (pg : HtmlPage) :
    List String × List Rec :=
  extractCards st (pickCards pg.cardsBySel)

/-- A product detail page as `extractProductDetails` reads it.  Selector
text lists follow the code's fixed selector order (`""` when a selector has
no match); `priceM`, `measureM`, `ratingM`, `reviewM`, `typeM` and `availM`
carry the results of the body-text patterns
`/Price\s*\p{Sc}?\s*(\d+(?:\.\d{1,2})?)/u`,
`/(?:W|Width|H|Height|D|Depth).*?(?:cm|mm|in)/i`, `/([\d.]+)\s*out of 5/i`,
`/(\d+)\s*(?:review|reviews)/i`, `/(?:Category|Type):\s*([^\n]+)/i` and
`/(?:Stock|Available|Availability):\s*([^\n]+)/i`; `imgSrcLists` lists the
resolved `src || data-src` per element per image selector, and
`featureTexts` the text of every `li`, `span` and `p` element in document
order. -/
structure DetailPage where
  nameTexts : List String
  descTexts : List String
  priceM : Option Rat
  measureM : Option String
  imgSrcLists : List (List String)
  ratingM : Option Rat
  reviewM : Option Nat
  featureTexts : List String
  typeM : Option String
  availM : Option String

/-- Image collection on a detail page: a source is kept when it is truthy,
mentions none of `spacer`, `placeholder`, `favicon`, is not yet collected,
and contains `products`. -/
def collectImgs (acc : List String) : List String → List String
  | [] => acc
  | src :: rest =>
    if src != "" && !containsStr src "spacer" && !containsStr src "placeholder"
        && !containsStr src "favicon" && !acc.contains src && containsStr src "products" then
      collectImgs (acc ++ [src]) rest
    else collectImgs acc rest

/-- Image-selector loop of `extractProductDetails`: selectors feed one
shared accumulator and the loop stops after the first selector round that
leaves it non-empty. -/
def imagesLoop (acc : List String) : List (List String) → List String
  | [] => acc
  | srcs :: rest =>
    let acc' := collectImgs acc srcs
    if acc'.isEmpty then imagesLoop acc' rest else acc'

/-- Feature harvesting of `extractProductDetails`: keep trimmed texts of
length in (10, 200) not starting with a digit, deduplicated, capped at 10. -/
def gatherFeatures (acc : List String) : List String → List String
  | [] => acc
  | t :: rest =>
    let txt := trimChars t
    let keep : Bool := txt != "" && decide (10 < txt.length) && decide (txt.length < 200)
        && !(match txt.data with | c :: _ => c.isDigit | [] => false)
    if keep && !acc.contains txt && decide (acc.length < 10) then
      gatherFeatures (acc ++ [txt]) rest
    else gatherFeatures acc rest

/-- Case-insensitive test of `/Add to|Select|Choose/i`. -/
def isBoilerplate (f : String) : Bool :=
  containsStr (lowerStr f) "add to" || containsStr (lowerStr f) "select" || containsStr (lowerStr f) "choose"

/-- Second-revision `extractProductDetails` (lines 1074-1175), returning the
`data` object it builds.  Keys are present exactly when the code assigns
them: `name`, `description`, `measurements` and `type` only when a match is
found, while `productId`, `price`, `images`, `rating`, `reviewCount`,
`features` and `availability` are always assigned (possibly with null). -/
def extractProductDetails (url : String) (pg : DetailPage) : Obj :=
  (match (pg.nameTexts.map trimChars).find? (fun t => t != "" && decide (3 < t.length)) with
   | some t => [("name", jstr t)]
   | none => [])
  ++ [("productId", match parsePid url with | some s => jstr s | none => jnull)]
  ++ [("price", match pg.priceM with | some q => jnum q | none => jnull)]
  ++ (match (pg.descTexts.map trimChars).find? (fun t => t != "" && decide (20 < t.length)) with
      | some t => [("description", jstr t)]
      | none => [])
  ++ (match pg.measureM with
      | some m => [("measurements", jstr (trimChars m))]
      | none => [])
  ++ [("images",
       let imgs := imagesLoop [] pg.imgSrcLists
       if imgs.isEmpty then jnull else jarr (imgs.map jstr))]
  ++ [("rating", match pg.ratingM with | some q => jnum q | none => jnull)]
  ++ [("reviewCount", match pg.reviewM with | some n => jnum (n : Rat) | none => jnull)]
  ++ [("features",
       let cleaned := ((gatherFeatures [] pg.featureTexts).filter
         (fun f => decide (10 < f.length) && !isBoilerplate f)).take 5
       if cleaned.isEmpty then jnull else jarr (cleaned.map jstr))]
  ++ (match pg.typeM with
      | some t => [("type", jstr (trimChars t))]
      | none => [])
  ++ [("availability", match pg.availM with
       | some a => jstr (trimChars a)
       | none => jstr "Check availability")]

/-- The merged record the second-revision `runDetailCrawler.requestHandler`
persists (lines 1340-1346):
`{...baseData, ...details, url, category: category || baseData.category || null, scrapedAt}`. -/
def detailFinalProduct (baseData : Obj) (url : String) (cat : String) (now : String)
    (pg : DetailPage) : Obj :=
  spread (spread baseData (extractProductDetails url pg))
    [("url", jstr url),
     ("category", jor (jstr cat) (jor (getF baseData "category") jnull)),
     ("scrapedAt", jstr now)]

/-- One enqueued detail request: the detail URL and the listing-derived
base record carried in `userData.baseData`. -/
structure DetailReq where
  url : String
  baseData : Obj

/-- Observable effects of the detail crawler's failure handler. -/
inductive FailAction where
  | logError (msg : String)
  | retireSession

/-- Second-revision `runDetailCrawler.failedRequestHandler` (lines
1355-1358), invoked once the transport's retries are exhausted: it logs the
failure and retires the session; the dataset is left untouched. -/
def detailFailedHandler (persisted : List Obj) (req : DetailReq) (errMsg : String)
    (hasSession : Bool) : List Obj × List FailAction :=
  (persisted,
   FailAction.logError ("Detail request " ++ req.url ++ " failed: " ++ errMsg)
     :: (if hasSession then [FailAction.retireSession] else []))

/-- URL with query parameters, the view `new URL(u)` exposes through
`searchParams`. -/
structure JUrl where
  base : String
  params : List (String × String)

/-- Query-string split into key-value pairs. -/
def parseParams (s : String) : List (String × String) :=
  (splitOnChar '&' s).filterMap fun kv =>
    match splitOnChar '=' kv with
    | [k, v] => some (k, v)
    | [k] => some (k, "")
    | _ => none

/-- Parse of an absolute URL into base and query parameters. -/
def parseUrl (u : String) : JUrl :=
  match splitOnChar '?' u with
  | [b] => ⟨b, []⟩
  | b :: q :: _ => ⟨b, parseParams q⟩
  | [] => ⟨"", []⟩

/-- The `searchParams.has(k)` test. -/
def hasParam (u : JUrl) (k : String) : Bool := (u.params.lookup k).isSome

/-- The `searchParams.get(k) || dflt` read. -/
def getParamD (u : JUrl) (k dflt : String) : String := (u.params.lookup k).getD dflt

/-- The `searchParams.set(k, v)` update: replaces an existing parameter in
place, otherwise appends. -/
def setParam (u : JUrl) (k v : String) : JUrl :=
  if hasParam u k then
    ⟨u.base, u.params.map fun kv => if kv.1 = k then (k, v) else kv⟩
  else ⟨u.base, u.params ++ [(k, v)]⟩

/-- Re-serialization `url.toString()`. -/
def urlToString (u : JUrl) : String :=
  u.base ++ (if u.params.isEmpty then ""
             else "?" ++ interStr "&" (u.params.map fun kv => kv.1 ++ "=" ++ kv.2))

/-- Directory prefix of a URL (up to and including the last `/`), the base
relative hrefs resolve against. -/
def baseDir (base : String) : String := ⟨(base.data.reverse.dropWhile (· ≠ '/')).reverse⟩

/-- `new URL(href, currentUrl).href` for the href shapes the pagination
elements carry (absolute, root-relative, relative). -/
def resolveUrl (href base : String) : String :=
  if containsStr href "://" then href
  else if startsWithStr href "/" then siteOrigin ++ href
  else baseDir base ++ href

/-- One pagination element as `findNextPage` reads it: the `href` attribute
of the selector's first match and whether `disabled` is set or
`aria-disabled` equals `"true"`. -/
structure NavEl where
  href : Option String
  disabledAttr : Bool

/-- The navigational view of a listing page: per next-page selector in the
code's fixed order, the first matched element, if any. -/
structure NavDoc where
  nextEls : List (Option NavEl)

/-- The `parseInt(s, 10)` conversion for the digit-only offsets occurring
here (the NaN path for non-numeric offsets is not modelled). -/
def parseIntD (s : String) : Nat := digitsToNat (takeDigits s.data)

/-- Second-revision `findNextPage` (lines 1177-1218): the first selector
whose element has a truthy href and is not disabled wins; otherwise a
synthetic next URL advances the `page` or `offset` query parameter of the
current URL. -/
def findNextPage (doc : NavDoc) (currentUrl : String) (pageNo : Nat) : Option String :=
  match doc.nextEls.find? (fun el =>
      match el with
      | some e => (match e.href with | some h => h ≠ "" | none => false) && !e.disabledAttr
      | none => false) with
  | some (some e) => some (resolveUrl (e.href.getD "") currentUrl)
  | _ =>
    let url := parseUrl currentUrl
    let nextPage := pageNo + 1
    if hasParam url "page" || pageNo = 1 then
      some (urlToString (setParam url "page" (toString nextPage)))
    else if hasParam url "offset" then
      some (urlToString (setParam url "offset"
        (toString (parseIntD (getParamD url "offset" "0") + 24))))
    else if pageNo = 1 then
      some (urlToString (setParam url "page" "2"))
    else none

/-- Pagination decision of the second-revision `runHtmlCrawler` LIST handler
(lines 1431-1439): a next page is enqueued (with page number `pageNo + 1`)
only under the budget guard
`saved < MAX_PRODUCTS && pageNo < MAX_PAGES && productsFound.length > 0`
and only when the candidate URL is truthy and differs from the current
request URL. -/
def decidePagination (saved MAXP pageNo MAXPAGES : Nat) (productsFound : List Rec)
    (doc : NavDoc) (currentUrl : String) : Option (String × Nat) :=
  if saved < MAXP ∧ pageNo < MAXPAGES ∧ ¬ productsFound.isEmpty then
    match findNextPage doc currentUrl pageNo with
    | some u => if u ≠ "" ∧ u ≠ currentUrl then some (u, pageNo + 1) else none
    | none => none
  else none

/-- Result of the first-revision `tryEmbeddedJson`: the parsed product
array (present only when non-empty parsing succeeded) and the fetched HTML,
abstracted as the card view `extractProductsFromHtml` would read from it
(`none` models `html: null`). -/
structure EmbResult where
  products : Option (List JVal)
  html : Option HtmlPage

/-- A listing page as the first-revision LIST handler sees it: the internal
API response (`null` or a product array), the embedded-JSON fetch result,
and the card view of the crawler's own parsed document `$`. -/
structure ListPage1 where
  apiProducts : Option (List JVal)
  emb : EmbResult
  dollar : Option HtmlPage

/-- Which extraction strategies the LIST handler invoked for one page. -/
structure Trace1 where
  api : Bool
  emb : Bool
  embHtml : Bool
  domDollar : Bool

/-- The candidate-processing loop shared by strategies 1 and 2 of the
first-revision LIST handler:
`for (p of l) { if (saved >= MAX_PRODUCTS) break; const r = processApiProduct(p); if (r) productsFound.push(r); }`. -/
def processCands (st : List String) (saved MAXP : Nat) (cat : String) :
    List JVal → List String × List Rec
  | [] => (st, [])
  | p :: rest =>
    if MAXP ≤ saved then (st, [])
    else
      match processApiProduct st cat p with
      | (st1, some r) =>
        let (st2, rs) := processCands st1 saved MAXP cat rest
        (st2, r :: rs)
      | (st1, none) => processCands st1 saved MAXP cat rest

/-- Strategy chain of the first-revision LIST handler (lines 603-643):
the internal API is always tried; the embedded-JSON fetch runs only when
`productsFound.length === 0` after processing the API candidates; HTML
parsing of the fetched page runs only when the embedded JSON also yielded
nothing and HTML is available; finally the crawler's own `$` document is
parsed when everything above left `productsFound` empty.  Returns the new
seen set, `productsFound`, and the invocation trace. -/
def listExtract1 (st : List String) (saved MAXP : Nat) (cat : String) (pg : ListPage1) :
    List String × List Rec × Trace1 :=
  let s1 :=
    match pg.apiProducts with
    | some l => if 0 < l.length then processCands st saved MAXP cat l else (st, [])
    | none => (st, [])
  if s1.2.isEmpty then
    let s2 :=
      match pg.emb.products with
      | some l2 =>
        if 0 < l2.length then
          (processCands s1.1 saved MAXP cat l2, false)
        else
          match pg.emb.html with
          | some doc => (extractProductsFromHtml s1.1 doc, true)
          | none => ((s1.1, []), false)
      | none =>
        match pg.emb.html with
        | some doc => (extractProductsFromHtml s1.1 doc, true)
        | none => ((s1.1, []), false)
    if s2.1.2.isEmpty then
      match pg.dollar with
      | some doc =>
        let s3 := extractProductsFromHtml s2.1.1 doc
        (s3.1, s3.2, ⟨true, true, s2.2, true⟩)
      | none => (s2.1.1, [], ⟨true, true, s2.2, false⟩)
    else (s2.1.1, s2.1.2, ⟨true, true, s2.2, false⟩)
  else (s1.1, s1.2, ⟨true, false, false, false⟩)

/-- Abstract state of the budget race: `saved` is the shared counter,
`nCheck` the number of detail handlers that have not yet run their budget
check, `nPersist` the number that passed the check but have not yet
persisted (the in-flight handlers suspended at an `await` between check and
persist). -/
structure CState where
  saved : Nat
  nCheck : Nat
  nPersist : Nat

/-- Scheduler actions over the shared counter. -/
inductive CAct where
  | check
  | persist

/-- One atomic step of the second-revision detail handlers under the
crawler's concurrency limit `c`: `check` starts a waiting handler (at most
`c` run concurrently) and executes `if (saved >= MAX_PRODUCTS) return;`;
`persist` resumes an in-flight handler past its `await`s and executes
`Dataset.pushData(...); saved++;`.  Disabled actions leave the state
unchanged. -/
def cstep (MAXP c : Nat) (s : CState) : CAct → CState
  | CAct.check =>
    if s.nCheck = 0 ∨ c ≤ s.nPersist then s
    else if MAXP ≤ s.saved then ⟨s.saved, s.nCheck - 1, s.nPersist⟩
    else ⟨s.saved, s.nCheck - 1, s.nPersist + 1⟩
  | CAct.persist =>
    if s.nPersist = 0 then s
    else ⟨s.saved + 1, s.nCheck, s.nPersist - 1⟩

/-- Interleaved execution of detail handlers under a schedule. -/
def crun (MAXP c : Nat) (s : CState) (acts : List CAct) : CState :=
  acts.foldl (cstep MAXP c) s

/-- Listing page numbers reachable through the second-revision pagination:
the run starts at page 1, and a page `p'` is reached from `p` exactly when
the LIST handler's pagination decision enqueues it. -/
inductive ReachPage (MAXP MAXPAGES : Nat) : Nat → Prop where
  | init : ReachPage MAXP MAXPAGES 1
  | next (saved p : Nat) (pf : List Rec) (doc : NavDoc) (curl u : String) (p' : Nat) :
      ReachPage MAXP MAXPAGES p →
      decidePagination saved MAXP p MAXPAGES pf doc curl = some (u, p') →
      ReachPage MAXP MAXPAGES p'

/-- The item filter of `fetchViaSik`:
`items?.filter((item) => item.type === 'PRODUCT' && item.product) ?? []`. -/
def sikFilterItems (items : List JVal) : List JVal :=
  items.filter fun it =>
    (match jget it "type" with | jstr s => s = "PRODUCT" | _ => false)
      && truthy (jget it "product")

/-- The per-batch loop of `fetchViaSik` (lines 1291-1304) with
`collectDetails` on: each mapped product with a truthy URL is pushed onto
`detailRequests` (base data plus URL); one with a null URL is persisted
directly.  Returns the new seen set, the new `saved` count, the directly
persisted records and the queued detail requests, in order. -/
def processSikItemsD (st : List String) (saved MAXP : Nat) (cat : String) :
    List JVal → List String × Nat × List Rec × List DetailReq
  | [] => (st, saved, [], [])
  | it :: rest =>
    if MAXP ≤ saved then (st, saved, [], [])
    else
      match mapSikProduct st cat (jget it "product") with
      | (st1, some r) =>
        if truthy r.url then
          let (st2, sv2, ps, q) := processSikItemsD st1 saved MAXP cat rest
          (st2, sv2, ps, ⟨jToString r.url, recToObj r⟩ :: q)
        else
          let (st2, sv2, ps, q) := processSikItemsD st1 (saved + 1) MAXP cat rest
          (st2, sv2, r :: ps, q)
      | (st1, none) => processSikItemsD st1 saved MAXP cat rest

/-- Sequential execution of the second-revision `runDetailCrawler`
request handler (lines 1335-1354) over the queued detail requests, each
paired with the detail page its fetch produced: a handler observing an
exhausted budget returns without persisting; otherwise the merged record is
persisted and `saved` incremented. -/
def runDetailQueue (saved MAXP : Nat) (cat now : String) :
    List (DetailReq × DetailPage) → Nat × List Obj
  | [] => (saved, [])
  | (req, pg) :: rest =>
    if MAXP ≤ saved then runDetailQueue saved MAXP cat now rest
    else
      let f := detailFinalProduct req.baseData req.url cat now pg
      let (s', ps) := runDetailQueue (saved + 1) MAXP cat now rest
      (s', f :: ps)

/-- Run state threaded through basic-mode (listing-only) processing. -/
structure BRun where
  seen : List String
  saved : Nat
  persisted : List Rec

/-- The `fetchViaSik` batch loop with `collectDetails` off: every mapped
product is persisted immediately (`Dataset.pushData(mapped); saved++`),
stopping at the budget. -/
def processSikBasic (cat : String) (MAXP : Nat) (s : BRun) : List JVal → BRun
  | [] => s
  | it :: rest =>
    if MAXP ≤ s.saved then s
    else
      match mapSikProduct s.seen cat (jget it "product") with
      | (st1, some r) => processSikBasic cat MAXP ⟨st1, s.saved + 1, s.persisted ++ [r]⟩ rest
      | (st1, none) => processSikBasic cat MAXP ⟨st1, s.saved, s.persisted⟩ rest

/-- The basic-mode persist loop of the `runHtmlCrawler` LIST handler
(lines 1416-1429): each extracted record is persisted as
`{...product, category: category || null}` until the budget is reached. -/
def persistHtmlBasic (cat : String) (MAXP : Nat) (s : BRun) : List Rec → BRun
  | [] => s
  | p :: rest =>
    if MAXP ≤ s.saved then s
    else persistHtmlBasic cat MAXP
      ⟨s.seen, s.saved + 1, s.persisted ++ [{ p with category := jor (jstr cat) jnull }]⟩ rest

/-- One serialized unit of listing work: a SIK API batch or one crawled
listing page (the JS event loop executes each mapper call atomically, so
any concurrent run is a sequence of these events). -/
inductive BasicEvent where
  | sikBatch (items : List JVal)
  | htmlPage (pg : HtmlPage)

/-- Basic-mode processing of one event. -/
def runBasicEvent (cat : String) (MAXP : Nat) (s : BRun) : BasicEvent → BRun
  | BasicEvent.sikBatch items => processSikBasic cat MAXP s (sikFilterItems items)
  | BasicEvent.htmlPage pg =>
    let ex := extractProductsFromHtml s.seen pg
    persistHtmlBasic cat MAXP ⟨ex.1, s.saved, s.persisted⟩ ex.2

/-- A basic-mode run over a sequence of listing events. -/
def runBasic (cat : String) (MAXP : Nat) (s : BRun) (evts : List BasicEvent) : BRun :=
  evts.foldl (runBasicEvent cat MAXP) s

/-- Whether a persisted object's `productId` equals the given id. -/
def pidIs (o : Obj) (i : String) : Bool :=
  match getF o "productId" with
  | jstr s => s = i
  | _ => false

/-- The id a card would resolve: the parse of its product URL. -/
def cardPid (c : Card) : Option String := (cardProductUrl c).bind parsePid

/-- Product ids of a record list. -/
def pids (l : List Rec) : List String := l.map Rec.productId

/-- A detail page on which every selector and body-text pattern misses. -/
def emptyDetailPage : DetailPage :=
  { nameTexts := [], descTexts := [], priceM := none, measureM := none,
    imgSrcLists := [], ratingM := none, reviewM := none, featureTexts := [],
    typeM := none, availM := none }

/-- A listing page whose API strategy returns one candidate that carries no
id field, while no other source is available. -/
def ex1Page : ListPage1 :=
  { apiProducts := some [jobj [("name", jstr "X")]],
    emb := { products := none, html := none },
    dollar := none }

/-- A listing page whose API strategy returns one accepted candidate while
the embedded-JSON source would also have products. -/
def ex1Good : ListPage1 :=
  { apiProducts := some [jobj [("id", jstr "70118164"), ("name", jstr "KLIPPAN")]],
    emb := { products := some [jobj [("id", jstr "80213074")]], html := none },
    dollar := none }

/-- SIK item whose claimed item number `111` differs from the id `222`
parsable from its pip URL. -/
def ex2ItemA : JVal :=
  jobj [("type", jstr "PRODUCT"),
        ("product", jobj [("itemNo", jstr "111"), ("name", jstr "Chair"),
                          ("pipUrl", jstr "/p/x-222/")])]

/-- SIK item whose claimed item number `222` also appears as the URL id of
`ex2ItemA`. -/
def ex2ItemB : JVal :=
  jobj [("type", jstr "PRODUCT"),
        ("product", jobj [("itemNo", jstr "222"), ("name", jstr "Table"),
                          ("pipUrl", jstr "/p/y-222/")])]

/-- Detail queue produced from the two SIK items of the duplicate-id run. -/
def ex2Queue : List DetailReq :=
  (processSikItemsD [] 0 10 "new-products" (sikFilterItems [ex2ItemA, ex2ItemB])).2.2.2

/-- Listing-derived base record with a name and a price. -/
def ex3Base : Obj :=
  [("productId", jstr "10243283"), ("name", jstr "KLIPPAN"),
   ("price", jnum 199), ("category", jnull)]

/-- Listing-derived base record whose price is still null. -/
def ex3BaseB : Obj :=
  [("productId", jstr "10243283"), ("name", jstr "X"), ("price", jnull)]

/-- Detail page whose body text yields the price `10` but no usable name
heading. -/
def ex3Price10 : DetailPage := { emptyDetailPage with priceM := some 10 }

/-- A record emitted from a listing card, as used by the pagination witness. -/
def ex5Rec : Rec :=
  { productId := "10243283", name := jstr "KLIPPAN", price := jnum 199,
    currency := jnull, image := jnull, url := jnull, rating := jnull,
    reviewCount := jnull, availability := jstr "Available", category := jnull }

/-- A listing page without any matched pagination element. -/
def ex5Nav : NavDoc := ⟨[none, none, none, none, none, none]⟩

/-- Base record carrying the claimed id `12345678`. -/
def ex7Base : Obj :=
  [("productId", jstr "12345678"), ("name", jstr "BILLY"), ("category", jnull)]

/-- A failed detail request whose listing base record has a name. -/
def ex8Req : DetailReq :=
  { url := "https://www.ikea.com/gb/en/p/klippan-sofa-10243283/",
    baseData := [("productId", jstr "10243283"), ("name", jstr "KLIPPAN")] }

/-- A card with a parsable product URL but no name anywhere: its id is
claimed, yet the name/price validation fails. -/
def ex9Fail : Card :=
  { hrefs := [some "https://www.ikea.com/gb/en/p/x-123/"], ariaLabel := none,
    nameTexts := [], elemText := "", imgCands := [], ratingM := none, reviewM := none }

/-- A later card bearing the same id `123`, this time with name and price. -/
def ex9Good : Card :=
  { hrefs := [some "https://www.ikea.com/gb/en/p/x-123/"], ariaLabel := none,
    nameTexts := ["KLIPPAN"], elemText := "KLIPPAN 199", imgCands := [],
    ratingM := none, reviewM := none }

/-- API payload whose own availability text differs from both sentinels. -/
def ex10P : JVal :=
  jobj [("id", jstr "90373425"), ("name", jstr "POANG"),
        ("availability", jstr "In stock at Croydon")]

/-- A card whose product link has a `/p/` segment without the numeric id
suffix, so no product id is parsable from its URL. -/
def ex7Card : Card :=
  { hrefs := [some "https://www.ikea.com/gb/en/p/klippan/"],
    ariaLabel := none, nameTexts := ["KLIPPAN"], elemText := "KLIPPAN 199",
    imgCands := [], ratingM := none, reviewM := none }

/-! Helper lemmas. -/

theorem truthy_jor (a b : JVal) : truthy (jor a b) = (truthy a || truthy b) := by
  unfold jor
  by_cases h : truthy a <;> simp [h]

theorem getF_nil (k : String) : getF [] k = jnull := rfl

theorem getF_spread (a b : Obj) (k : String) :
    getF (spread a b) k = if hasKey b k then getF b k else getF a k := by
  induction a with
  | nil => cases hlb : b.lookup k <;> simp [getF, hasKey, spread, hlb]
  | cons hd tl ih =>
    obtain ⟨k', v⟩ := hd
    by_cases hk : k = k'
    · subst hk
      cases hlb : b.lookup k with
      | some w =>
        have hfil : ((k, v) :: tl).filter (fun kv => !(hasKey b kv.1)) =
            tl.filter (fun kv => !(hasKey b kv.1)) := by
          simp [List.filter_cons, hasKey, hlb]
        rw [spread, hfil]
        rw [spread] at ih
        rw [ih]
        simp [hasKey, hlb]
      | none =>
        have hfil : ((k, v) :: tl).filter (fun kv => !(hasKey b kv.1)) =
            (k, v) :: tl.filter (fun kv => !(hasKey b kv.1)) := by
          simp [List.filter_cons, hasKey, hlb]
        rw [spread, hfil]
        simp [getF, hasKey, hlb, List.lookup]
    · have hbeq : (k == k') = false := beq_eq_false_iff_ne.mpr hk
      by_cases hfb : hasKey b k'
      · have hfil : ((k', v) :: tl).filter (fun kv => !(hasKey b kv.1)) =
            tl.filter (fun kv => !(hasKey b kv.1)) := by
          simp [List.filter_cons, hfb]
        rw [spread, hfil, ← spread, ih]
        simp [getF, List.lookup, hbeq]
      · have hfil : ((k', v) :: tl).filter (fun kv => !(hasKey b kv.1)) =
            (k', v) :: tl.filter (fun kv => !(hasKey b kv.1)) := by
          simp [List.filter_cons, hfb]
        rw [spread, hfil]
        have hlk : getF (((k', v) :: tl.filter (fun kv => !(hasKey b kv.1))) ++ b) k =
            getF ((tl.filter (fun kv => !(hasKey b kv.1))) ++ b) k := by
          simp [getF, List.lookup, hbeq]
        rw [hlk, ← spread, ih]
        simp [getF, List.lookup, hbeq]

theorem decidePagination_inv {saved MAXP pageNo MAXPAGES : Nat} {pf : List Rec}
    {doc : NavDoc} {curl u : String} {p' : Nat}
    (h : decidePagination saved MAXP pageNo MAXPAGES pf doc curl = some (u, p')) :
    saved < MAXP ∧ pageNo < MAXPAGES ∧ pf ≠ [] ∧ u ≠ curl ∧ p' = pageNo + 1 := by
  unfold decidePagination at h
  split at h
  · rename_i hguard
    obtain ⟨h1, h2, h3⟩ := hguard
    split at h
    · split at h
      · rename_i hu
        obtain ⟨rfl, rfl⟩ := Prod.mk.injEq .. ▸ Option.some.injEq .. ▸ h
        exact ⟨h1, h2, by simpa using h3, hu.2, rfl⟩
      · exact absurd h (by simp)
    · exact absurd h (by simp)
  · exact absurd h (by simp)

theorem mapSik_cases (st : List String) (cat : String) (p : JVal) :
    mapSikProduct st cat p = (st, none) ∨
    (sikPid p ∉ st ∧
      mapSikProduct st cat p = (sikPid p :: st, some (sikRecord (sikPid p) cat p))) := by
  unfold mapSikProduct
  by_cases h1 : sikPid p = ""
  · left; simp [h1]
  · by_cases h2 : sikPid p ∈ st
    · left; simp [h1, tryClaim, h2]
    · right; exact ⟨h2, by simp [h1, tryClaim, h2]⟩

theorem extractCard_cases (st : List String) (c : Card) :
    extractCard st c = (st, none) ∨
    (∃ url pid, cardProductUrl c = some url ∧ parsePid url = some pid ∧ pid ∉ st ∧
      (extractCard st c).1 = pid :: st ∧
      (((extractCard st c).2 = some (cardRecord pid url c) ∧
          truthy (cardRecord pid url c).name = true ∧
          truthy (cardRecord pid url c).price = true) ∨
        (extractCard st c).2 = none)) := by
  cases hu : cardProductUrl c with
  | none => left; simp [extractCard, hu]
  | some url =>
    cases hp : parsePid url with
    | none => left; simp [extractCard, hu, hp]
    | some pid =>
      by_cases hm : pid ∈ st
      · left; simp [extractCard, hu, hp, tryClaim, hm]
      · right
        by_cases hv : truthy (cardRecord pid url c).name ∧ truthy (cardRecord pid url c).price
        · exact ⟨url, pid, rfl, hp, hm, by simp [extractCard, hu, hp, tryClaim, hm, hv],
            Or.inl ⟨by simp [extractCard, hu, hp, tryClaim, hm, hv], hv.1, hv.2⟩⟩
        · exact ⟨url, pid, rfl, hp, hm, by simp [extractCard, hu, hp, tryClaim, hm, hv],
            Or.inr (by simp [extractCard, hu, hp, tryClaim, hm, hv])⟩

theorem extractCard_seen_sub (st : List String) (c : Card) : st ⊆ (extractCard st c).1 := by
  rcases extractCard_cases st c with h | ⟨url, pid, _, _, _, h1, _⟩
  · rw [h]; exact fun _ hx => hx
  · rw [h1]; exact List.subset_cons_self _ _

theorem extractCard_emit {st : List String} {c : Card} {r : Rec}
    (h : (extractCard st c).2 = some r) :
    r.productId ∉ st ∧ (extractCard st c).1 = r.productId :: st ∧
    r.currency = jnull ∧ truthy r.name = true ∧ truthy r.price = true ∧
    r.availability = jstr "Available" := by
  rcases extractCard_cases st c with h0 | ⟨url, pid, _, _, hm, h1, h2 | h2⟩
  · rw [h0] at h; cases h
  · rw [h2.1] at h
    obtain rfl := Option.some.injEq .. ▸ h
    exact ⟨hm, h1, rfl, h2.2.1, h2.2.2, rfl⟩
  · rw [h2] at h; cases h

theorem extractCard_claims {st : List String} {c : Card} {pid : String}
    (h1 : cardPid c = some pid) (h2 : pid ∉ st) :
    (extractCard st c).1 = pid :: st := by
  unfold cardPid at h1
  cases hu : cardProductUrl c with
  | none => rw [hu] at h1; cases h1
  | some url =>
    rw [hu] at h1
    simp only [Option.some_bind] at h1
    by_cases hv : truthy (cardRecord pid url c).name ∧ truthy (cardRecord pid url c).price <;>
      simp [extractCard, hu, h1, tryClaim, h2, hv]

theorem extractCards_spec (cs : List Card) (st : List String) :
    st ⊆ (extractCards st cs).1 ∧
    (pids (extractCards st cs).2).Nodup ∧
    ∀ r ∈ (extractCards st cs).2,
      r.productId ∈ (extractCards st cs).1 ∧ r.productId ∉ st := by
  induction cs generalizing st with
  | nil => simp [extractCards, pids]
  | cons c rest ih =>
    rcases hec : extractCard st c with ⟨st1, r?⟩
    have hsub1 : st ⊆ st1 := by
      have h := extractCard_seen_sub st c
      rwa [hec] at h
    cases r? with
    | none =>
      have hrest := ih st1
      simp only [extractCards, hec]
      exact ⟨hsub1.trans hrest.1, hrest.2.1,
        fun r hr => ⟨(hrest.2.2 r hr).1, fun hmem => (hrest.2.2 r hr).2 (hsub1 hmem)⟩⟩
    | some r =>
      have hemit := @extractCard_emit st c r (by rw [hec])
      have hst1 : st1 = r.productId :: st := by
        have h := hemit.2.1
        rw [hec] at h
        exact h
      rcases h2 : extractCards st1 rest with ⟨st2, rs⟩
      have hrest := ih st1
      rw [h2] at hrest
      simp only [extractCards, hec, h2]
      have hridst1 : r.productId ∈ st1 := by rw [hst1]; exact List.mem_cons_self _ _
      refine ⟨?_, ?_, ?_⟩
      · exact fun x hx => hrest.1 (by rw [hst1]; exact List.mem_cons_of_mem _ hx)
      · have hnot : r.productId ∉ pids rs := by
          intro hmem
          obtain ⟨q, hq, hqe⟩ := List.mem_map.mp hmem
          exact (hrest.2.2 q hq).2 (hqe ▸ hridst1)
        have hps : pids (r :: rs) = r.productId :: pids rs := by simp [pids]
        rw [hps]
        exact List.nodup_cons.mpr ⟨hnot, hrest.2.1⟩
      · intro q hq
        rcases List.mem_cons.mp hq with rfl | hq'
        · exact ⟨hrest.1 hridst1, hemit.1⟩
        · refine ⟨(hrest.2.2 q hq').1, fun hmem => (hrest.2.2 q hq').2 ?_⟩
          rw [hst1]
          exact List.mem_cons_of_mem _ hmem

theorem pids_append (l1 l2 : List Rec) : pids (l1 ++ l2) = pids l1 ++ pids l2 := by
  simp [pids]

theorem processSikBasic_inv (cat : String) (MAXP : Nat) (items : List JVal) (s : BRun)
    (h1 : (pids s.persisted).Nodup) (h2 : ∀ i ∈ pids s.persisted, i ∈ s.seen) :
    (pids (processSikBasic cat MAXP s items).persisted).Nodup ∧
    ∀ i ∈ pids (processSikBasic cat MAXP s items).persisted,
      i ∈ (processSikBasic cat MAXP s items).seen := by
  induction items generalizing s with
  | nil => exact ⟨h1, h2⟩
  | cons it rest ih =>
    by_cases hb : MAXP ≤ s.saved
    · simp only [processSikBasic, hb, if_true]
      exact ⟨h1, h2⟩
    · rcases mapSik_cases s.seen cat (jget it "product") with hm | ⟨hfresh, hm⟩
      · simp only [processSikBasic, hb, if_false, hm]
        exact ih ⟨s.seen, s.saved, s.persisted⟩ h1 h2
      · simp only [processSikBasic, hb, if_false, hm]
        have hnotp : sikPid (jget it "product") ∉ pids s.persisted := fun hmem =>
          hfresh (h2 _ hmem)
      -- invariants for the extended state
        refine ih ⟨sikPid (jget it "product") :: s.seen, s.saved + 1,
          s.persisted ++ [sikRecord (sikPid (jget it "product")) cat (jget it "product")]⟩ ?_ ?_
        · rw [pids_append]
          rw [List.nodup_append]
          refine ⟨h1, by simp [pids], ?_⟩
          intro a ha hb2
          have : a = sikPid (jget it "product") := by simpa [pids] using hb2
          exact hnotp (this ▸ ha)
        · intro i hi
          rw [pids_append] at hi
          rcases List.mem_append.mp hi with hi | hi
          · exact List.mem_cons_of_mem _ (h2 _ hi)
          · have : i = sikPid (jget it "product") := by simpa [pids] using hi
            rw [this]
            exact List.mem_cons_self _ _

theorem persistHtmlBasic_inv (cat : String) (MAXP : Nat) (ps : List Rec) (s : BRun)
    (h1 : (pids s.persisted).Nodup) (h2 : ∀ i ∈ pids s.persisted, i ∈ s.seen)
    (h3 : (pids ps).Nodup)
    (h4 : ∀ r ∈ ps, r.productId ∈ s.seen ∧ r.productId ∉ pids s.persisted) :
    (pids (persistHtmlBasic cat MAXP s ps).persisted).Nodup ∧
    ∀ i ∈ pids (persistHtmlBasic cat MAXP s ps).persisted,
      i ∈ (persistHtmlBasic cat MAXP s ps).seen := by
  induction ps generalizing s with
  | nil => exact ⟨h1, h2⟩
  | cons p rest ih =>
    by_cases hb : MAXP ≤ s.saved
    · simp only [persistHtmlBasic, hb, if_true]
      exact ⟨h1, h2⟩
    · simp only [persistHtmlBasic, hb, if_false]
      have hps : pids (p :: rest) = p.productId :: pids rest := by simp [pids]
      rw [hps] at h3
      have hpn := List.nodup_cons.mp h3
      refine ih ⟨s.seen, s.saved + 1,
        s.persisted ++ [{ p with category := jor (jstr cat) jnull }]⟩ ?_ ?_ hpn.2 ?_
      · rw [pids_append]
        rw [List.nodup_append]
        refine ⟨h1, by simp [pids], ?_⟩
        intro a ha hb2
        have : a = p.productId := by simpa [pids] using hb2
        exact (h4 p (List.mem_cons_self _ _)).2 (this ▸ ha)
      · intro i hi
        rw [pids_append] at hi
        rcases List.mem_append.mp hi with hi | hi
        · exact h2 _ hi
        · have : i = p.productId := by simpa [pids] using hi
          rw [this]
          exact (h4 p (List.mem_cons_self _ _)).1
      · intro q hq
        refine ⟨(h4 q (List.mem_cons_of_mem _ hq)).1, ?_⟩
        rw [pids_append]
        intro hmem
        rcases List.mem_append.mp hmem with hm2 | hm2
        · exact (h4 q (List.mem_cons_of_mem _ hq)).2 hm2
        · have hqp : q.productId = p.productId := by simpa [pids] using hm2
          exact hpn.1 (hqp ▸ List.mem_map_of_mem Rec.productId hq)

theorem runBasicEvent_inv (cat : String) (MAXP : Nat) (s : BRun) (e : BasicEvent)
    (h1 : (pids s.persisted).Nodup) (h2 : ∀ i ∈ pids s.persisted, i ∈ s.seen) :
    (pids (runBasicEvent cat MAXP s e).persisted).Nodup ∧
    ∀ i ∈ pids (runBasicEvent cat MAXP s e).persisted,
      i ∈ (runBasicEvent cat MAXP s e).seen := by
  cases e with
  | sikBatch items => exact processSikBasic_inv cat MAXP _ s h1 h2
  | htmlPage pg =>
    have hspec := extractCards_spec (pickCards pg.cardsBySel) s.seen
    simp only [runBasicEvent, extractProductsFromHtml]
    refine persistHtmlBasic_inv cat MAXP _ _ h1 ?_ hspec.2.1 ?_
    · exact fun i hi => hspec.1 (h2 i hi)
    · intro r hr
      exact ⟨(hspec.2.2 r hr).1, fun hmem => (hspec.2.2 r hr).2 (h2 _ hmem)⟩

theorem runBasic_inv (cat : String) (MAXP : Nat) (evts : List BasicEvent) (s : BRun)
    (h1 : (pids s.persisted).Nodup) (h2 : ∀ i ∈ pids s.persisted, i ∈ s.seen) :
    (pids (runBasic cat MAXP s evts).persisted).Nodup := by
  induction evts generalizing s with
  | nil => exact h1
  | cons e rest ih =>
    have h := runBasicEvent_inv cat MAXP s e h1 h2
    exact ih (runBasicEvent cat MAXP s e) h.1 h.2

theorem countP_pid (l : List Rec) (i : String) :
    l.countP (fun r => r.productId == i) = (pids l).count i := by
  induction l with
  | nil => simp [pids]
  | cons p rest ih => simp [pids, List.countP_cons, List.count_cons, ih]

theorem cstep_sum (MAXP c : Nat) (s : CState) (a : CAct)
    (h : s.saved + s.nPersist + 1 ≤ MAXP + c) :
    (cstep MAXP c s a).saved + (cstep MAXP c s a).nPersist + 1 ≤ MAXP + c := by
  cases a with
  | check =>
    simp only [cstep]
    split
    · exact h
    · rename_i hcond
      push_neg at hcond
      split
      · exact h
      · rename_i hsv
        push_neg at hsv
        simp only []
        omega
  | persist =>
    simp only [cstep]
    split
    · exact h
    · rename_i hnp
      simp only []
      omega

theorem crun_sum (MAXP c : Nat) (acts : List CAct) (s : CState)
    (h : s.saved + s.nPersist + 1 ≤ MAXP + c) :
    (crun MAXP c s acts).saved + (crun MAXP c s acts).nPersist + 1 ≤ MAXP + c := by
  induction acts generalizing s with
  | nil => exact h
  | cons a rest ih =>
    simp only [crun, List.foldl_cons] at *
    exact ih _ (cstep_sum MAXP c s a h)

theorem reachPage_le {MAXP MAXPAGES p : Nat} (h : ReachPage MAXP MAXPAGES p)
    (h1 : 1 ≤ MAXPAGES) : p ≤ MAXPAGES := by
  induction h with
  | init => exact h1
  | next saved q pf doc curl u p' hr hd ih =>
    obtain ⟨_, hq, _, _, hp'⟩ := decidePagination_inv hd
    omega

theorem processApiProduct_emit {st : List String} {cat : String} {p : JVal} {r : Rec}
    (h : (processApiProduct st cat p).2 = some r) :
    r = apiRecord (jToString (jor (jget p "id") (jor (jget p "productId") (jget p "itemNo"))))
          cat p := by
  by_cases hT : truthy (jor (jget p "id") (jor (jget p "productId") (jget p "itemNo")))
  · by_cases hm : jToString (jor (jget p "id") (jor (jget p "productId") (jget p "itemNo"))) ∈ st
    · simp [processApiProduct, hT, tryClaim, hm] at h
    · simp [processApiProduct, hT, tryClaim, hm] at h
      exact h.symm
  · simp [processApiProduct, hT] at h

theorem extractCards_emit (cs : List Card) (st : List String) (r : Rec)
    (h : r ∈ (extractCards st cs).2) :
    r.currency = jnull ∧ truthy r.price = true ∧ r.availability = jstr "Available" := by
  induction cs generalizing st with
  | nil => simp [extractCards] at h
  | cons c rest ih =>
    rcases hec : extractCard st c with ⟨st1, r?⟩
    cases r? with
    | none =>
      rw [extractCards, hec] at h
      exact ih st1 h
    | some r0 =>
      rcases h2 : extractCards st1 rest with ⟨st2, rs⟩
      simp only [extractCards, hec, h2] at h
      rcases List.mem_cons.mp h with rfl | hr'
      · have he := @extractCard_emit st c r (by rw [hec])
        exact ⟨he.2.2.1, he.2.2.2.2.1, he.2.2.2.2.2⟩
      · have hi := ih st1
        rw [h2] at hi
        exact hi hr'

theorem extractPD_productId (url : String) (pg : DetailPage) :
    hasKey (extractProductDetails url pg) "productId" = true ∧
    getF (extractProductDetails url pg) "productId" =
      (match parsePid url with | some s => jstr s | none => jnull) := by
  unfold extractProductDetails
  cases hn : (pg.nameTexts.map trimChars).find? (fun t => t != "" && decide (3 < t.length)) with
  | none => simp [hasKey, getF, List.lookup]
  | some t => simp [hasKey, getF, List.lookup]

/-! Claim theorems. -/

/-- Claim C1 (counterexample): the strategy chain does not short-circuit on
the first strategy that yields a candidate.  On `ex1Page` the internal API
yields one candidate record (which `processApiProduct` rejects for lack of
an id), yet the lower-priority embedded-JSON strategy is still invoked. -/
theorem claim1_counterexample :
    (listExtract1 [] 0 10 "new-products" ex1Page).2.2.emb = true ∧
    ∃ l, ex1Page.apiProducts = some l ∧ l.length = 1 :=
  ⟨rfl, [jobj [("name", jstr "X")]], rfl, rfl⟩

/-- Claim C1 (amended): the chain short-circuits on the first strategy that
yields at least one *accepted* record — one surviving id-extraction, the
seen-set claim and the budget cut inside `processApiProduct` — rather than
on raw candidates: when processing the API products leaves `productsFound`
non-empty, no lower-priority strategy is invoked and the page's records are
exactly those accepted API records. -/
theorem claim1_amended (st : List String) (saved MAXP : Nat) (cat : String)
    (pg : ListPage1) (l : List JVal)
    (hapi : pg.apiProducts = some l)
    (hne : (processCands st saved MAXP cat l).2 ≠ []) :
    (listExtract1 st saved MAXP cat pg).2.2.emb = false ∧
    (listExtract1 st saved MAXP cat pg).2.2.embHtml = false ∧
    (listExtract1 st saved MAXP cat pg).2.2.domDollar = false ∧
    (listExtract1 st saved MAXP cat pg).2.1 = (processCands st saved MAXP cat l).2 := by
  have hl : 0 < l.length := by
    cases l with
    | nil => simp [processCands] at hne
    | cons a r => simp
  have hne' : (processCands st saved MAXP cat l).2.isEmpty = false := by
    simp [List.isEmpty_iff, hne]
  simp [listExtract1, hapi, hl, hne']

/-- Concrete instance of the amended C1: with one accepted API candidate
the embedded-JSON strategy (which itself carries products here) and the DOM
strategies are skipped. -/
theorem claim1_amended_witness :
    (listExtract1 [] 0 10 "new-products" ex1Good).2.2.emb = false ∧
    (listExtract1 [] 0 10 "new-products" ex1Good).2.2.embHtml = false ∧
    (listExtract1 [] 0 10 "new-products" ex1Good).2.2.domDollar = false ∧
    (listExtract1 [] 0 10 "new-products" ex1Good).2.1 =
      (processCands [] 0 10 "new-products"
        [jobj [("id", jstr "70118164"), ("name", jstr "KLIPPAN")]]).2 :=
  claim1_amended [] 0 10 "new-products" ex1Good _ rfl
    (List.ne_nil_of_length_pos (by decide))

/-- Claim C2 (counterexample): in detail mode the persisted id is not the
claimed id — `extractProductDetails` recomputes `productId` from the detail
URL and the spread overwrites the base record's id — so two SIK candidates
whose claimed item numbers `111` and `222` both resolve detail URLs parsing
to `222` are persisted as two records with the same product id `222`. -/
theorem claim2_counterexample :
    1 < ((runDetailQueue 0 10 "new-products" "2026-02-07T00:00:00.000Z"
        (ex2Queue.map fun r => (r, emptyDetailPage))).2.countP
          (fun o => pidIs o "222")) := by decide

/-- Claim C2 (amended): the seen-set claim does succeed exactly when the id
was not previously recorded, and in basic (listing-only) mode — where a
record is persisted under its claimed id — any serialized sequence of SIK
batches and listing pages persists at most one record per product id. -/
theorem claim2_amended :
    (∀ (st : List String) (i : String), (tryClaim st i).1 = true ↔ i ∉ st) ∧
    ∀ (cat : String) (MAXP : Nat) (evts : List BasicEvent) (i : String),
      (runBasic cat MAXP ⟨[], 0, []⟩ evts).persisted.countP
        (fun r => r.productId == i) ≤ 1 := by
  constructor
  · intro st i
    unfold tryClaim
    by_cases h : i ∈ st <;> simp [h]
  · intro cat MAXP evts i
    rw [countP_pid]
    have hnd := runBasic_inv cat MAXP evts ⟨[], 0, []⟩ (by simp [pids]) (by simp [pids])
    exact List.nodup_iff_count_le_one.mp hnd i

/-- Claim C3 (counterexample): the merge is a plain object spread, so a
null detail value does overwrite a non-null listing value: the listing
record has price `199`, the detail extraction finds no price and assigns
`price: null`, and the merged record's price is null — contradicting
"a detail field overrides the listing value only when non-null". -/
theorem claim3_counterexample :
    getF ex3Base "price" = jnum 199 ∧
    getF (extractProductDetails "https://www.ikea.com/gb/en/p/klippan-sofa-10243283/"
      emptyDetailPage) "price" = jnull ∧
    getF (detailFinalProduct ex3Base "https://www.ikea.com/gb/en/p/klippan-sofa-10243283/"
      "new-products" "2026-02-07T00:00:00.000Z" emptyDetailPage) "price" = jnull :=
  ⟨rfl, rfl, rfl⟩

/-- Claim C3 (amended): the listing record is the base, and a detail field
overrides it exactly when `extractProductDetails` assigns that key — even
when the assigned value is null (`productId`, `price`, `images`, `rating`,
`reviewCount`, `features` are always assigned); only keys the extractor
leaves unassigned (`name`, `description`, `measurements`, `type` when
nothing matches) keep the listing value. -/
theorem claim3_amended (base : Obj) (url cat now : String) (pg : DetailPage) (k : String)
    (h1 : k ≠ "url") (h2 : k ≠ "category") (h3 : k ≠ "scrapedAt") :
    getF (detailFinalProduct base url cat now pg) k =
      if hasKey (extractProductDetails url pg) k
      then getF (extractProductDetails url pg) k
      else getF base k := by
  have e1 : (k == "url") = false := beq_eq_false_iff_ne.mpr h1
  have e2 : (k == "category") = false := beq_eq_false_iff_ne.mpr h2
  have e3 : (k == "scrapedAt") = false := beq_eq_false_iff_ne.mpr h3
  unfold detailFinalProduct
  rw [getF_spread]
  have hex : hasKey
      [("url", jstr url), ("category", jor (jstr cat) (jor (getF base "category") jnull)),
       ("scrapedAt", jstr now)] k = false := by
    simp [hasKey, List.lookup, e1, e2, e3]
  rw [hex]
  simp only [Bool.false_eq_true, if_false]
  exact getF_spread base (extractProductDetails url pg) k

/-- Concrete instance of the amended C3 (the claim's own example, as the
code realizes it): merging listing `{name: "X", price: null}` with a detail
page that yields no usable name heading but price `10` gives
`{name: "X", price: 10}` — the name key is absent from the detail result,
so the listing name survives, while the assigned price overrides. -/
theorem claim3_amended_witness :
    getF (detailFinalProduct ex3BaseB "https://www.ikea.com/gb/en/p/x-10243283/"
      "new-products" "2026-02-07T00:00:00.000Z" ex3Price10) "name" = jstr "X" ∧
    getF (detailFinalProduct ex3BaseB "https://www.ikea.com/gb/en/p/x-10243283/"
      "new-products" "2026-02-07T00:00:00.000Z" ex3Price10) "price" = jnum 10 := by
  constructor
  · rw [claim3_amended ex3BaseB "https://www.ikea.com/gb/en/p/x-10243283/"
      "new-products" "2026-02-07T00:00:00.000Z" ex3Price10 "name"
      (by decide) (by decide) (by decide)]
    rfl
  · rw [claim3_amended ex3BaseB "https://www.ikea.com/gb/en/p/x-10243283/"
      "new-products" "2026-02-07T00:00:00.000Z" ex3Price10 "price"
      (by decide) (by decide) (by decide)]
    rfl

/-- Claim C4 (counterexample): the budget check and the persist are
separated by suspension points, so two concurrently in-flight detail
handlers both pass the check at `saved = 0` with ceiling `1` and both
persist: the final persisted count is `2`, exceeding the product ceiling. -/
theorem claim4_counterexample :
    1 < (crun 1 2 ⟨0, 2, 0⟩ [CAct.check, CAct.check, CAct.persist, CAct.persist]).saved := by
  decide

/-- Claim C4 (amended): page numbers reachable through the pagination guard
never exceed the page ceiling, and the persisted count is bounded by the
product ceiling plus the concurrency limit minus one — in particular it
never exceeds the ceiling under sequential processing (`c = 1`), but
concurrent detail handlers may overshoot by up to `c - 1`. -/
theorem claim4_amended :
    (∀ (MAXP c n : Nat) (acts : List CAct), 1 ≤ c →
      (crun MAXP c ⟨0, n, 0⟩ acts).saved ≤ MAXP + (c - 1)) ∧
    (∀ (MAXP MAXPAGES p : Nat), ReachPage MAXP MAXPAGES p → 1 ≤ MAXPAGES →
      p ≤ MAXPAGES) := by
  constructor
  · intro MAXP c n acts hc
    have h := crun_sum MAXP c acts ⟨0, n, 0⟩ (by show 0 + 0 + 1 ≤ MAXP + c; omega)
    omega
  · intro MAXP MAXPAGES p h h1
    exact reachPage_le h h1

/-- Concrete instance of the amended C4: a sequential schedule (`c = 1`)
of three handlers against ceiling `1` stays within the ceiling, and the
initial listing page respects the page ceiling. -/
theorem claim4_amended_witness :
    (crun 1 1 ⟨0, 3, 0⟩
      [CAct.check, CAct.persist, CAct.check, CAct.persist, CAct.check, CAct.persist]).saved
        ≤ 1 + (1 - 1) ∧
    (1 : Nat) ≤ 5 :=
  ⟨claim4_amended.1 1 1 3 _ (by decide),
   claim4_amended.2 1 5 1 ReachPage.init (by decide)⟩

/-- Claim C5 (confirmed): a next listing page is enqueued only when the
persisted count is below the product ceiling, the page number is below the
page ceiling, and the page yielded at least one record; and the enqueued
URL always differs from the current URL (the loop guard compares them and
halts on equality), carrying page number `pageNo + 1`. -/
theorem claim5_pagination (saved MAXP pageNo MAXPAGES : Nat) (pf : List Rec)
    (doc : NavDoc) (curl u : String) (p' : Nat)
    (h : decidePagination saved MAXP pageNo MAXPAGES pf doc curl = some (u, p')) :
    saved < MAXP ∧ pageNo < MAXPAGES ∧ pf ≠ [] ∧ u ≠ curl ∧ p' = pageNo + 1 :=
  decidePagination_inv h

/-- Concrete instance of C5: on a page with one record, no pagination
element and budgets left, the synthetic fallback enqueues `?page=2`, a URL
different from the current one. -/
theorem claim5_pagination_witness :
    0 < 10 ∧ 1 < 5 ∧ [ex5Rec] ≠ ([] : List Rec) ∧
    "https://www.ikea.com/gb/en/new/new-products/?page=2"
      ≠ "https://www.ikea.com/gb/en/new/new-products/" ∧ 2 = 1 + 1 :=
  claim5_pagination 0 10 1 5 [ex5Rec] ex5Nav
    "https://www.ikea.com/gb/en/new/new-products/"
    "https://www.ikea.com/gb/en/new/new-products/?page=2" 2 rfl

/-- Claim C6 (counterexample): price and currency are not set together —
`processApiProduct` on a payload without any price field emits a record
with `currency: 'GBP'` (the chain's constant fallback) and `price: null`. -/
theorem claim6_counterexample :
    ∃ r, (processApiProduct [] "new-products"
        (jobj [("id", jstr "40584839"), ("name", jstr "BILLY")])).2 = some r
      ∧ r.currency = jstr "GBP" ∧ r.price = jnull :=
  ⟨_, rfl, rfl, rfl⟩

/-- Claim C6 (amended): price and currency vary independently — every
record emitted by `processApiProduct` has a truthy (hence non-null)
currency, falling back to `'GBP'` even when the price is null, while every
record emitted by the second-revision DOM listing extractor has a null
currency together with a truthy price. -/
theorem claim6_amended :
    (∀ (st : List String) (cat : String) (p : JVal) (r : Rec),
      (processApiProduct st cat p).2 = some r → truthy r.currency = true) ∧
    ∀ (st : List String) (pg : HtmlPage) (r : Rec),
      r ∈ (extractProductsFromHtml st pg).2 → r.currency = jnull ∧ truthy r.price = true := by
  constructor
  · intro st cat p r h
    rw [processApiProduct_emit h]
    show truthy (jor (jget (jget p "price") "currency")
      (jor (jget p "currencyCode") (jstr "GBP"))) = true
    rw [truthy_jor, truthy_jor]
    simp [truthy]
  · intro st pg r h
    simp only [extractProductsFromHtml] at h
    have he := extractCards_emit (pickCards pg.cardsBySel) st r h
    exact ⟨he.1, he.2.1⟩

/-- Concrete instance of the amended C6 on an API payload without price
fields and on a DOM card with a price but no currency source. -/
theorem claim6_amended_witness :
    truthy (apiRecord "40584839" "new-products"
      (jobj [("id", jstr "40584839"), ("name", jstr "BILLY")])).currency = true ∧
    ((cardRecord "123" "https://www.ikea.com/gb/en/p/x-123/" ex9Good).currency = jnull ∧
      truthy (cardRecord "123" "https://www.ikea.com/gb/en/p/x-123/" ex9Good).price = true) :=
  ⟨claim6_amended.1 [] "new-products" (jobj [("id", jstr "40584839"), ("name", jstr "BILLY")])
     _ rfl,
   claim6_amended.2 [] ⟨[[ex9Good]]⟩ _ (by
     have he : (extractProductsFromHtml [] ⟨[[ex9Good]]⟩).2 =
         [cardRecord "123" "https://www.ikea.com/gb/en/p/x-123/" ex9Good] := rfl
     rw [he]
     exact List.mem_cons_self _ _)⟩

/-- Claim C7 (counterexample): a record can be persisted with a null id —
the detail merge always overwrites `productId` with the id parsed from the
detail URL, so a detail page whose URL lacks the `/p/<slug>-<digits>`
pattern is persisted with `productId: null` even though the listing base
record carried the id `12345678`. -/
theorem claim7_counterexample :
    getF ex7Base "productId" = jstr "12345678" ∧
    getF (detailFinalProduct ex7Base "https://www.ikea.com/gb/en/planner" "new-products"
      "2026-02-07T00:00:00.000Z" emptyDetailPage) "productId" = jnull :=
  ⟨rfl, rfl⟩

/-- Claim C7 (amended): on the listing side the claim holds — a card whose
URL yields no parsable id is dropped before the seen set or the output list
is touched — but on the detail side the merged record's `productId` is
always the id parsed from the detail URL (null when unparsable), regardless
of the listing id. -/
theorem claim7_amended :
    (∀ (st : List String) (c : Card), cardPid c = none → extractCard st c = (st, none)) ∧
    ∀ (base : Obj) (url cat now : String) (pg : DetailPage),
      getF (detailFinalProduct base url cat now pg) "productId" =
        (match parsePid url with | some s => jstr s | none => jnull) := by
  constructor
  · intro st c h
    cases hu : cardProductUrl c with
    | none => simp [extractCard, hu]
    | some url =>
      have hp : parsePid url = none := by simpa [cardPid, hu] using h
      simp [extractCard, hu, hp]
  · intro base url cat now pg
    unfold detailFinalProduct
    rw [getF_spread]
    have hex : hasKey
        [("url", jstr url), ("category", jor (jstr cat) (jor (getF base "category") jnull)),
         ("scrapedAt", jstr now)] "productId" = false := by
      simp [hasKey, List.lookup]
    rw [hex]
    simp only [Bool.false_eq_true, if_false]
    rw [getF_spread, (extractPD_productId url pg).1]
    simp only [if_true]
    exact (extractPD_productId url pg).2

/-- Concrete instance of the amended C7: an unparsable card touches
nothing, and a parsable detail URL overrides the merged record's id. -/
theorem claim7_amended_witness :
    extractCard [] ex7Card = ([], none) ∧
    getF (detailFinalProduct ex7Base "https://www.ikea.com/gb/en/p/billy-00263850/"
        "new-products" "2026-02-07T00:00:00.000Z" emptyDetailPage) "productId" =
      (match parsePid "https://www.ikea.com/gb/en/p/billy-00263850/" with
       | some s => jstr s | none => jnull) :=
  ⟨claim7_amended.1 [] ex7Card rfl,
   claim7_amended.2 ex7Base "https://www.ikea.com/gb/en/p/billy-00263850/" "new-products"
     "2026-02-07T00:00:00.000Z" emptyDetailPage⟩

/-- Claim C8 (counterexample): when a detail fetch fails after retries, the
listing-only record is not persisted even though the base record has a name
— the failure handler leaves the dataset untouched, so the claim's
"listing record has a name → one record persisted" scenario produces zero
records. -/
theorem claim8_counterexample :
    truthy (getF ex8Req.baseData "name") = true ∧
    (detailFailedHandler [] ex8Req "ERR_TUNNEL_CONNECTION_FAILED" true).1 = [] :=
  ⟨rfl, rfl⟩

/-- Claim C8 (amended): a detail fetch that ultimately fails is dropped and
the failure reported, regardless of the listing data — the failure handler
only logs the error (and retires the session) and never persists anything;
a listing-only record survives only when the fetch succeeds and the merge
retains the listing fields. -/
theorem claim8_amended (persisted : List Obj) (req : DetailReq) (err : String) (hs : Bool) :
    (detailFailedHandler persisted req err hs).1 = persisted ∧
    FailAction.logError ("Detail request " ++ req.url ++ " failed: " ++ err)
      ∈ (detailFailedHandler persisted req err hs).2 :=
  ⟨rfl, List.mem_cons_self _ _⟩

/-- Claim C9 (confirmed): the DOM extractor claims a card's id before the
name/price validation, so when the first card bearing a fresh id fails that
validation the id is permanently in the seen set and no record with that id
is ever emitted by any later extraction of the run. -/
theorem claim9_seen_before_validation (st : List String) (c : Card) (i : String)
    (cs2 : List Card) (q : Rec)
    (h1 : cardPid c = some i) (h2 : i ∉ st) (_h3 : (extractCard st c).2 = none) :
    i ∈ (extractCard st c).1 ∧
    (q ∈ (extractCards (extractCard st c).1 cs2).2 → q.productId ≠ i) := by
  have hclaim := extractCard_claims h1 h2
  constructor
  · rw [hclaim]
    exact List.mem_cons_self _ _
  · intro hq he
    have hnotin := (( extractCards_spec cs2 (extractCard st c).1).2.2 q hq).2
    rw [hclaim] at hnotin
    exact hnotin (he ▸ List.mem_cons_self _ _)

/-- Concrete instance of C9: `ex9Fail` (id `123`, no name) claims the id
without emitting; the later card `ex9Good` with the same id and a valid
name/price is never emitted. -/
theorem claim9_witness :
    "123" ∈ (extractCard [] ex9Fail).1 ∧
    (ex5Rec ∈ (extractCards (extractCard [] ex9Fail).1 [ex9Good]).2 →
      ex5Rec.productId ≠ "123") :=
  claim9_seen_before_validation [] ex9Fail "123" [ex9Good] ex5Rec rfl (by simp) rfl

/-- Claim C10 (confirmed): because `||` binds tighter than `?:`, the
availability emitted by `processApiProduct` is always exactly one of the
two sentinels, `'Available'` when `availability || availableForClickAndCollect`
is truthy and `'Check availability'` otherwise; the payload's own
availability text is never copied into the record. -/
theorem claim10_availability (st : List String) (cat : String) (p : JVal) (r : Rec)
    (h : (processApiProduct st cat p).2 = some r) :
    (r.availability = jstr "Available" ∨ r.availability = jstr "Check availability") ∧
    (r.availability = jstr "Available" ↔
      (truthy (jget p "availability") || truthy (jget p "availableForClickAndCollect"))
        = true) := by
  rw [processApiProduct_emit h]
  by_cases hc : (truthy (jget p "availability") || truthy (jget p "availableForClickAndCollect"))
      = true
  · simp [apiRecord, truthy_jor, hc]
  · simp [apiRecord, truthy_jor, hc]

/-- Concrete instance of C10: a payload whose own availability text is
`'In stock at Croydon'` is emitted with the sentinel `'Available'`. -/
theorem claim10_witness :
    ((apiRecord "90373425" "new-products" ex10P).availability = jstr "Available" ∨
      (apiRecord "90373425" "new-products" ex10P).availability = jstr "Check availability") ∧
    ((apiRecord "90373425" "new-products" ex10P).availability = jstr "Available" ↔
      (truthy (jget ex10P "availability") || truthy (jget ex10P "availableForClickAndCollect"))
        = true) :=
  claim10_availability [] "new-products" ex10P _ rfl
